import Mathlib

/-!
Formal model of the OpenCart Product API Python client
(`src/get_product.py`, class `OpenCartAPI`).

Text is modelled as `List Char`.  The pure parts of the client
(HTML entity handling, JSON-response cleaning, envelope validation and
post-processing, request building, input validation of the public
operations) are translated directly from the Python source.  The network
itself is external: each public operation is modelled as the value it
produces before dispatch (either a raised validation error or the built
request), and response handling is modelled as a function from the HTTP
status and raw body to the returned envelope or raised error.

Library functions the source calls (`json.loads`, `html.escape`,
`html.unescape`, the `requests` status / exception machinery) are not part
of the repository; they are modelled here by executable Lean functions
that follow their documented behaviour, restricted where noted to the
fragment the client exercises.
-/

/-- Character lists stand in for Python strings. -/
abbrev Chars := List Char

/-- Opening curly brace character (written via its code point). -/
def lbrace : Char := Char.ofNat 123

/-- Closing curly brace character (written via its code point). -/
def rbrace : Char := Char.ofNat 125

/-- Single-quote character (written via its code point). -/
def squote : Char := Char.ofNat 39

/-
HTML entity handling.

`html.escape(s, quote)` replaces `&` by `&amp;`, `<` by `&lt;`, `>` by
`&gt;` and, when `quote` is true, `"` by `&quot;` and the single quote by
`&#x27;`.  The replacements are applied to the original characters only,
so the sequential `str.replace` calls of the Python implementation agree
with the character-wise map below.

`html.unescape(s)` replaces HTML character references by the characters
they denote.  The model below covers the named references with a
trailing semicolon that this development exercises (`&amp;` `&lt;` `&gt;`
`&quot;`); every other occurrence of `&` is kept verbatim, as Python does
for text that matches no reference.
-/

/-- Per-character translation used by `html_escape` (models one character
of Python `html.escape`). -/
def escCharHtml (quote : Bool) (c : Char) : Chars :=
  if c = '&' then "&amp;".toList
  else if c = '<' then "&lt;".toList
  else if c = '>' then "&gt;".toList
  else if quote && c = '"' then "&quot;".toList
  else if quote && c = squote then "&#x27;".toList
  else [c]

/-- Model of Python `html.escape(s, quote)`. -/
def html_escape (quote : Bool) : Chars → Chars
  | [] => []
  | c :: rest => escCharHtml quote c ++ html_escape quote rest

/-- Model of Python `html.unescape(s)` on the entity fragment described
above. -/
def html_unescape : Chars → Chars
  | [] => []
  | '&' :: 'a' :: 'm' :: 'p' :: ';' :: rest => '&' :: html_unescape rest
  | '&' :: 'l' :: 't' :: ';' :: rest => '<' :: html_unescape rest
  | '&' :: 'g' :: 't' :: ';' :: rest => '>' :: html_unescape rest
  | '&' :: 'q' :: 'u' :: 'o' :: 't' :: ';' :: rest => '"' :: html_unescape rest
  | c :: rest => c :: html_unescape rest

/-- Common character domain of the encode / decode pair: a string is in
canonical encoded form when every ampersand starts one of the canonical
references `&amp;` `&lt;` `&gt;` and no bare `<` or `>` occurs.  This is
exactly the image of `html_escape false`, the deep-encode leaf
operation. -/
def encodedForm : Chars → Bool
  | [] => true
  | '&' :: 'a' :: 'm' :: 'p' :: ';' :: rest => encodedForm rest
  | '&' :: 'l' :: 't' :: ';' :: rest => encodedForm rest
  | '&' :: 'g' :: 't' :: ';' :: rest => encodedForm rest
  | '&' :: 'q' :: 'u' :: 'o' :: 't' :: ';' :: _ => false
  | c :: rest => decide (c ≠ '&' ∧ c ≠ '<' ∧ c ≠ '>') && encodedForm rest

/-- Round trip of the two leaf operations on the common domain:
re-encoding a decoded canonical string restores it. -/
theorem escape_unescape (s : Chars) (h : encodedForm s = true) :
    html_escape false (html_unescape s) = s := by
  induction s using html_unescape.induct with
  | case1 => rfl
  | case2 rest ih =>
    have h' : encodedForm rest = true := h
    show '&' :: 'a' :: 'm' :: 'p' :: ';' :: html_escape false (html_unescape rest)
        = '&' :: 'a' :: 'm' :: 'p' :: ';' :: rest
    exact congrArg (fun t => '&' :: 'a' :: 'm' :: 'p' :: ';' :: t) (ih h')
  | case3 rest ih =>
    have h' : encodedForm rest = true := h
    show '&' :: 'l' :: 't' :: ';' :: html_escape false (html_unescape rest)
        = '&' :: 'l' :: 't' :: ';' :: rest
    exact congrArg (fun t => '&' :: 'l' :: 't' :: ';' :: t) (ih h')
  | case4 rest ih =>
    have h' : encodedForm rest = true := h
    show '&' :: 'g' :: 't' :: ';' :: html_escape false (html_unescape rest)
        = '&' :: 'g' :: 't' :: ';' :: rest
    exact congrArg (fun t => '&' :: 'g' :: 't' :: ';' :: t) (ih h')
  | case5 rest ih =>
    exact absurd h (by exact fun hf => Bool.noConfusion hf)
  | case6 c rest h1 h2 h3 h4 ih =>
    rw [encodedForm.eq_6 c rest h1 h2 h3 h4] at h
    simp only [Bool.and_eq_true, decide_eq_true_eq] at h
    obtain ⟨⟨hc1, hc2, hc3⟩, hrest⟩ := h
    rw [html_unescape.eq_6 c rest h1 h2 h3 h4]
    show escCharHtml false c ++ html_escape false (html_unescape rest) = c :: rest
    simp only [escCharHtml, if_neg hc1, if_neg hc2, if_neg hc3, Bool.false_and,
      if_neg (Bool.false_ne_true)]
    rw [ih hrest]
    rfl

/-
JSON values.  Python represents parsed JSON as nested dicts / lists /
strings / numbers / booleans / None; the mutual inductive below mirrors
that.  Object fields keep insertion order, as Python dicts do, and the
parser collapses duplicate keys exactly like dict construction.
-/

mutual
/-- Parsed JSON value (the result type of the modelled `json.loads`). -/
inductive Json where
  | null
  | bool (b : Bool)
  | num (n : Int)
  | str (s : Chars)
  | arr (elems : JArr)
  | obj (fields : JObj)
/-- Sequence of JSON values (a Python list). -/
inductive JArr where
  | nil
  | cons (head : Json) (tail : JArr)
/-- Ordered association of string keys to JSON values (a Python dict). -/
inductive JObj where
  | nil
  | cons (key : Chars) (value : Json) (tail : JObj)
end

/-- Value stored under a key, first occurrence (keys produced by the
parser are unique, mirroring a Python dict). -/
def jobjGet : JObj → Chars → Option Json
  | .nil, _ => none
  | .cons k v tl, key => if k = key then some v else jobjGet tl key

/-- Key membership, Python `key in d` for a dict. -/
def jobjHasKey (o : JObj) (k : Chars) : Bool :=
  (jobjGet o k).isSome

/-- Python dict assignment `d[k] = v`: replaces the value in place when
the key exists, appends otherwise. -/
def jobjAssign : JObj → Chars → Json → JObj
  | .nil, k, v => .cons k v .nil
  | .cons k0 v0 tl, k, v =>
      if k0 = k then .cons k0 v tl else .cons k0 v0 (jobjAssign tl k v)

/-- Folds a raw member list into a dict with Python assignment
semantics (first occurrence keeps its position, last value wins). -/
def jobjCollect (acc : JObj) : JObj → JObj
  | .nil => acc
  | .cons k v tl => jobjCollect (jobjAssign acc k v) tl

/-- Python `needle in xs` for a list, where `needle` is a string: only a
string element equal to the needle matches. -/
def jarrHasStr (needle : Chars) : JArr → Bool
  | .nil => false
  | .cons (.str t) tl => t = needle || jarrHasStr needle tl
  | .cons _ tl => jarrHasStr needle tl

/-- Python truthiness of a parsed JSON value. -/
def truthy : Json → Bool
  | .null => false
  | .bool b => b
  | .num n => n ≠ 0
  | .str s => !s.isEmpty
  | .arr .nil => false
  | .arr (.cons _ _) => true
  | .obj .nil => false
  | .obj (.cons _ _ _) => true

mutual
/-- Model of `OpenCartAPI._decode_html_in_dict`: recursively decode HTML
entities in dict / list structures, leaving other leaves untouched. -/
def decode_html_in_dict : Json → Json
  | .null => .null
  | .bool b => .bool b
  | .num n => .num n
  | .str s => .str (html_unescape s)
  | .arr xs => .arr (decode_html_arr xs)
  | .obj kvs => .obj (decode_html_obj kvs)
/-- List case of `_decode_html_in_dict`. -/
def decode_html_arr : JArr → JArr
  | .nil => .nil
  | .cons x tl => .cons (decode_html_in_dict x) (decode_html_arr tl)
/-- Dict case of `_decode_html_in_dict`; keys are not decoded. -/
def decode_html_obj : JObj → JObj
  | .nil => .nil
  | .cons k v tl => .cons k (decode_html_in_dict v) (decode_html_obj tl)
end

mutual
/-- Model of `OpenCartAPI._encode_html_in_dict`: recursively encode HTML
special characters (quote characters excluded) in dict / list
structures. -/
def encode_html_in_dict : Json → Json
  | .null => .null
  | .bool b => .bool b
  | .num n => .num n
  | .str s => .str (html_escape false s)
  | .arr xs => .arr (encode_html_arr xs)
  | .obj kvs => .obj (encode_html_obj kvs)
/-- List case of `_encode_html_in_dict`. -/
def encode_html_arr : JArr → JArr
  | .nil => .nil
  | .cons x tl => .cons (encode_html_in_dict x) (encode_html_arr tl)
/-- Dict case of `_encode_html_in_dict`; keys are not encoded. -/
def encode_html_obj : JObj → JObj
  | .nil => .nil
  | .cons k v tl => .cons k (encode_html_in_dict v) (encode_html_obj tl)
end

mutual
/-- All string leaves of a value are in canonical encoded form. -/
def encodedDeepJ : Json → Bool
  | .null => true
  | .bool _ => true
  | .num _ => true
  | .str s => encodedForm s
  | .arr xs => encodedDeepA xs
  | .obj kvs => encodedDeepO kvs
/-- All string leaves of a list are in canonical encoded form. -/
def encodedDeepA : JArr → Bool
  | .nil => true
  | .cons x tl => encodedDeepJ x && encodedDeepA tl
/-- All string leaves of dict values are in canonical encoded form. -/
def encodedDeepO : JObj → Bool
  | .nil => true
  | .cons _ v tl => encodedDeepJ v && encodedDeepO tl
end

mutual
/-- Deep round trip on values whose string leaves are canonical. -/
theorem encode_decode_J : ∀ (x : Json), encodedDeepJ x = true →
    encode_html_in_dict (decode_html_in_dict x) = x
  | .null, _ => rfl
  | .bool _, _ => rfl
  | .num _, _ => rfl
  | .str s, h => congrArg Json.str (escape_unescape s h)
  | .arr xs, h => congrArg Json.arr (encode_decode_A xs h)
  | .obj kvs, h => congrArg Json.obj (encode_decode_O kvs h)
/-- Deep round trip, list case. -/
theorem encode_decode_A : ∀ (xs : JArr), encodedDeepA xs = true →
    encode_html_arr (decode_html_arr xs) = xs
  | .nil, _ => rfl
  | .cons x tl, h => by
      rw [show encodedDeepA (.cons x tl) = (encodedDeepJ x && encodedDeepA tl) from rfl,
        Bool.and_eq_true] at h
      show JArr.cons (encode_html_in_dict (decode_html_in_dict x))
          (encode_html_arr (decode_html_arr tl)) = JArr.cons x tl
      rw [encode_decode_J x h.1, encode_decode_A tl h.2]
/-- Deep round trip, dict case. -/
theorem encode_decode_O : ∀ (kvs : JObj), encodedDeepO kvs = true →
    encode_html_obj (decode_html_obj kvs) = kvs
  | .nil, _ => rfl
  | .cons k v tl, h => by
      rw [show encodedDeepO (.cons k v tl) = (encodedDeepJ v && encodedDeepO tl) from rfl,
        Bool.and_eq_true] at h
      show JObj.cons k (encode_html_in_dict (decode_html_in_dict v))
          (encode_html_obj (decode_html_obj tl)) = JObj.cons k v tl
      rw [encode_decode_J v h.1, encode_decode_O tl h.2]
end

/-
JSON parsing.  `response.json()` and `json.loads` parse strict JSON; the
recursive-descent model below covers the fragment the client exchanges:
`null`, `true`, `false`, integer numbers, strings with the simple escape
sequences, arrays and objects, with the standard whitespace rules and
the whole-input requirement.  A successful parse in this model agrees
with `json.loads`; inputs outside the fragment (floats, `\u` escapes)
are rejected rather than approximated.
-/

/-- JSON whitespace (space, tab, line feed, carriage return). -/
def isJsonWs (c : Char) : Bool :=
  c = ' ' || c = '\t' || c = '\n' || c = '\r'

/-- Drops leading JSON whitespace. -/
def skipJsonWs : Chars → Chars
  | [] => []
  | c :: rest => if isJsonWs c then skipJsonWs rest else c :: rest

/-- Translation of a JSON string escape character. -/
def escCharJson (c : Char) : Option Char :=
  if c = '"' then some '"'
  else if c = '\\' then some '\\'
  else if c = '/' then some '/'
  else if c = 'n' then some '\n'
  else if c = 't' then some '\t'
  else if c = 'r' then some '\r'
  else if c = 'b' then some (Char.ofNat 8)
  else if c = 'f' then some (Char.ofNat 12)
  else none

/-- Parses the body of a JSON string after the opening quote, returning
the decoded characters and the input after the closing quote.  Raw
control characters are rejected, as in strict-mode `json.loads`. -/
def pStringBody : Chars → Option (Chars × Chars)
  | [] => none
  | '"' :: rest => some ([], rest)
  | '\\' :: e :: rest =>
    match escCharJson e, pStringBody rest with
    | some c, some (s, r) => some (c :: s, r)
    | _, _ => none
  | c :: rest =>
    if c.toNat < 32 then none
    else
      match pStringBody rest with
      | some (s, r) => some (c :: s, r)
      | none => none

/-- Splits a maximal run of decimal digits off the input. -/
def takeDigits : Chars → (Chars × Chars)
  | [] => ([], [])
  | c :: rest =>
    if c.isDigit then
      let (d, r) := takeDigits rest
      (c :: d, r)
    else ([], c :: rest)

/-- Numeric value of a digit run. -/
def digitsToNat (ds : Chars) : Nat :=
  ds.foldl (fun a c => a * 10 + (c.toNat - 48)) 0

/-- Parses an unsigned JSON integer (no leading zeros). -/
def pNumberNat (s : Chars) : Option (Nat × Chars) :=
  match takeDigits s with
  | ([], _) => none
  | (ds, r) =>
    if ds.length > 1 && ds.head? = some '0' then none
    else some (digitsToNat ds, r)

/-- Parses a JSON integer with optional minus sign. -/
def pNumber (s : Chars) : Option (Int × Chars) :=
  match s with
  | '-' :: rest =>
    match pNumberNat rest with
    | some (n, r) => some (-(n : Int), r)
    | none => none
  | _ =>
    match pNumberNat s with
    | some (n, r) => some ((n : Int), r)
    | none => none

mutual
/-- Parses one JSON value, returning it with the remaining input.  The
fuel argument bounds recursion depth; `json_loads` supplies enough for
its input. -/
def pValue : Nat → Chars → Option (Json × Chars)
  | 0, _ => none
  | Nat.succ f, s =>
    match skipJsonWs s with
    | [] => none
    | 'n' :: 'u' :: 'l' :: 'l' :: r => some (.null, r)
    | 't' :: 'r' :: 'u' :: 'e' :: r => some (.bool true, r)
    | 'f' :: 'a' :: 'l' :: 's' :: 'e' :: r => some (.bool false, r)
    | '"' :: r =>
      match pStringBody r with
      | some (cs, r1) => some (.str cs, r1)
      | none => none
    | '[' :: r =>
      match skipJsonWs r with
      | ']' :: r1 => some (.arr .nil, r1)
      | r1 =>
        match pElems f r1 with
        | some (xs, r2) => some (.arr xs, r2)
        | none => none
    | c :: r =>
      if c = lbrace then
        match skipJsonWs r with
        | c1 :: r1 =>
          if c1 = rbrace then some (.obj .nil, r1)
          else
            match pMembers f (c1 :: r1) with
            | some (kvs, r2) => some (.obj (jobjCollect .nil kvs), r2)
            | none => none
        | [] => none
      else
        match pNumber (c :: r) with
        | some (n, r1) => some (.num n, r1)
        | none => none
/-- Parses the comma-separated elements of a non-empty array, up to and
including the closing bracket. -/
def pElems : Nat → Chars → Option (JArr × Chars)
  | 0, _ => none
  | Nat.succ f, s =>
    match pValue f s with
    | none => none
    | some (v, r) =>
      match skipJsonWs r with
      | ',' :: r1 =>
        match pElems f r1 with
        | some (xs, r2) => some (.cons v xs, r2)
        | none => none
      | ']' :: r1 => some (.cons v .nil, r1)
      | _ => none
/-- Parses the members of a non-empty object, up to and including the
closing brace; the caller collapses duplicate keys. -/
def pMembers : Nat → Chars → Option (JObj × Chars)
  | 0, _ => none
  | Nat.succ f, s =>
    match skipJsonWs s with
    | '"' :: r =>
      match pStringBody r with
      | none => none
      | some (k, r1) =>
        match skipJsonWs r1 with
        | ':' :: r2 =>
          match pValue f r2 with
          | none => none
          | some (v, r3) =>
            match skipJsonWs r3 with
            | ',' :: r4 =>
              match pMembers f r4 with
              | some (kvs, r5) => some (.cons k v kvs, r5)
              | none => none
            | c :: r4 => if c = rbrace then some (.cons k v .nil, r4) else none
            | [] => none
        | _ => none
    | _ => none
end

/-- Model of `json.loads` (and `response.json()`): parse one value and
require only whitespace after it. -/
def json_loads (s : Chars) : Option Json :=
  match pValue (2 * s.length + 2) s with
  | some (j, rest) => if (skipJsonWs rest).isEmpty then some j else none
  | none => none

/-
Response cleaning.  `_clean_json_response` runs
`re.search(pattern, text, re.DOTALL)` where the pattern is an
alternation of a brace-delimited and a bracket-delimited span followed
by optional whitespace and the end of input, and returns the first
capture group when a match exists, the raw text otherwise.  The model
below mirrors the regex engine on this pattern: candidate start
positions are scanned left to right, the brace alternative is tried
before the bracket alternative, and the greedy dot-star takes the span
ending at the last closer that is followed only by whitespace.
-/

/-- Whitespace class of the Python regex engine (ASCII fragment). -/
def isReWs (c : Char) : Bool :=
  c = ' ' || c = '\t' || c = '\n' || c = '\r' || c = Char.ofNat 11 || c = Char.ofNat 12

/-- Attempts one alternative of the cleaning pattern at the start of
the input: an opener `o` now, a closer `c` later followed only by
whitespace; returns the greedy matched span. -/
def matchSpan (o c : Char) (s : Chars) : Option Chars :=
  match s with
  | [] => none
  | x :: rest =>
    if x = o then
      match rest.reverse.dropWhile isReWs with
      | y :: ys => if y = c then some (x :: (y :: ys).reverse) else none
      | [] => none
    else none

/-- Scans start positions left to right, trying the brace alternative
and then the bracket alternative at each, as `re.search` does. -/
def searchSpan : Chars → Option Chars
  | [] => none
  | x :: rest =>
    match matchSpan lbrace rbrace (x :: rest) with
    | some g => some g
    | none =>
      match matchSpan '[' ']' (x :: rest) with
      | some g => some g
      | none => searchSpan rest

/-- Model of `OpenCartAPI._clean_json_response`. -/
def clean_json_response (text : Chars) : Chars :=
  (searchSpan text).getD text

/-
Error taxonomy.  The Python client raises `ValueError` both for local
precondition failures in the public methods and for malformed responses
in `_request`; the two constructors below record the raise site,
matching the taxonomy named in the documentation.  `requests` exceptions
re-raised with a status code become `httpError`.  `typeError` and
`attributeError` model the built-in Python exceptions that escape
`_request` when the parsed JSON is not a dict (`in` on a non-container,
`.get` on a non-dict).
-/

/-- Exceptions observable from the client. -/
inductive PyErr where
  | validationError (msg : Chars)
  | invalidResponse (msg : Chars)
  | httpError (status : Nat) (msg : Chars)
  | typeError
  | attributeError
deriving DecidableEq

/-- Message of the limit check in `search_products` / `get_all_categories`. -/
def limitMsg : Chars := "Limit cannot exceed 100 items".toList

/-- Message of the product-id check in `get_product` / `update_product`. -/
def invalidProductIdMsg : Chars := "Invalid product ID".toList

/-- Message of the attribute-id check in `get_attribute`. -/
def invalidAttributeIdMsg : Chars := "Invalid attribute ID".toList

/-- Message of the empty-key check in `search_attributes_by_key`. -/
def emptyKeyMsg : Chars := "Search key cannot be empty".toList

/-- Message of the empty-value check in `search_attributes_by_value`. -/
def emptyValueMsg : Chars := "Search value cannot be empty".toList

/-- Message of the empty-name check in `search_categories`. -/
def emptyNameMsg : Chars := "Search name cannot be empty".toList

/-- Message of the data check in `add_attribute`. -/
def invalidAttributeDataMsg : Chars := "Invalid attribute data".toList

/-- Message of the data check in `add_attribute_group`. -/
def invalidGroupDataMsg : Chars := "Invalid attribute group data".toList

/-- Message of the missing-envelope check in `_request`. -/
def missingSuccessMsg : Chars :=
  "Invalid API response format: missing ".toList
    ++ squote :: "success".toList ++ squote :: " field".toList

/-- Message of the failed-recovery branch in `_request` (the raw text is
truncated to 500 characters). -/
def invalidJsonMsg (body : Chars) : Chars :=
  "Invalid JSON response after cleaning: ".toList ++ body.take 500

/-- Key `success` of the response envelope. -/
def successKey : Chars := "success".toList

/-- Key `data` of the response envelope. -/
def dataKey : Chars := "data".toList

/-- Key `error` of the response envelope. -/
def errorKey : Chars := "error".toList

mutual
/-- Python `repr` of a parsed JSON value (approximate for strings inside
containers, which Python quotes with escaping; nothing below depends on
the container rendering). -/
def pyReprJ : Json → Chars
  | .null => "None".toList
  | .bool b => if b then "True".toList else "False".toList
  | .num n => (toString n).toList
  | .str s => squote :: (s ++ [squote])
  | .arr xs => '[' :: (pyReprA xs ++ [']'])
  | .obj kvs => lbrace :: (pyReprO kvs ++ [rbrace])
/-- Comma-separated element rendering. -/
def pyReprA : JArr → Chars
  | .nil => []
  | .cons x .nil => pyReprJ x
  | .cons x tl => pyReprJ x ++ ", ".toList ++ pyReprA tl
/-- Comma-separated member rendering. -/
def pyReprO : JObj → Chars
  | .nil => []
  | .cons k v .nil => squote :: (k ++ squote :: ": ".toList) ++ pyReprJ v
  | .cons k v tl =>
      squote :: (k ++ squote :: ": ".toList) ++ pyReprJ v ++ ", ".toList ++ pyReprO tl
end

/-- Python `str` of a parsed JSON value, as the f-string in the error
handler applies it: a string renders as itself, anything else by
`repr`. -/
def pyStr : Json → Chars
  | .str s => s
  | j => pyReprJ j

/-- Prefix test on character lists. -/
def strStarts : Chars → Chars → Bool
  | [], _ => true
  | _ :: _, [] => false
  | a :: ps, b :: ss => a = b && strStarts ps ss

/-- Substring test, Python `needle in hay` for strings. -/
def strContains (needle : Chars) : Chars → Bool
  | [] => needle.isEmpty
  | b :: tl => strStarts needle (b :: tl) || strContains needle tl

/-- Python `needle in x` where `needle` is a string: key membership for
a dict, element equality for a list, substring test for a string, and a
`TypeError` (modelled as `none`) for the remaining non-container
values. -/
def pyContainsStr (needle : Chars) : Json → Option Bool
  | .obj kvs => some (jobjHasKey kvs needle)
  | .arr xs => some (jarrHasStr needle xs)
  | .str s => some (strContains needle s)
  | _ => none

/-- Envelope validation and post-processing of `_request` after a parse
succeeded: check `if success not in result`, then, when
`auto_decode_html and result.get(success) and data in result` holds,
replace the `data` entry by its HTML-decoded copy; return the envelope
otherwise unchanged.  A non-dict result makes the membership test raise
`TypeError` for non-containers and makes `.get` raise
`AttributeError` when the decode branch is evaluated. -/
def postParse (auto : Bool) (r : Json) : Except PyErr Json :=
  match pyContainsStr successKey r with
  | none => .error .typeError
  | some false => .error (.invalidResponse missingSuccessMsg)
  | some true =>
    if auto then
      match r with
      | .obj kvs =>
        if truthy ((jobjGet kvs successKey).getD .null) && jobjHasKey kvs dataKey then
          .ok (.obj (jobjAssign kvs dataKey
            (decode_html_in_dict ((jobjGet kvs dataKey).getD .null))))
        else .ok (.obj kvs)
      | _ => .error .attributeError
    else .ok r

/-- Parsing step of `_request`: direct `response.json()` first, then one
retry on the cleaned text, then the invalid-JSON error. -/
def loadsWithClean (body : Chars) : Except PyErr Json :=
  match json_loads body with
  | some r => .ok r
  | none =>
    match json_loads (clean_json_response body) with
    | some r => .ok r
    | none => .error (.invalidResponse (invalidJsonMsg body))

/-- Statuses for which `response.raise_for_status()` raises (4xx and
5xx). -/
def httpFailStatus (status : Nat) : Bool :=
  400 ≤ status && status < 600

/-- Text of the exception raised by `raise_for_status`, used by the
error handler as `str(e)`.  The exact wording is library-defined
(status code, error class and request URL); the model keeps its two
properties that matter here: it names the status and it is not derived
from the response body. -/
def raiseForStatusText (status : Nat) : Chars :=
  (toString status).toList
    ++ (if status < 500 then " Client Error for url".toList
        else " Server Error for url".toList)

/-- Error message extraction of the handler in `_request`: parse the
body, read its `error` field with `str(e)` as default; any failure
(unparsable body, non-dict result) falls back to the raw body text, or
to `str(e)` when that text is empty. -/
def http_error_message (status : Nat) (body : Chars) : Chars :=
  match json_loads body with
  | some (.obj kvs) =>
    match jobjGet kvs errorKey with
    | some v => pyStr v
    | none => raiseForStatusText status
  | _ => if body.isEmpty then raiseForStatusText status else body

/-- Response half of `_request`: given the HTTP status and the raw body
text, either the raised error or the returned envelope. -/
def processResponse (auto : Bool) (status : Nat) (body : Chars) : Except PyErr Json :=
  if httpFailStatus status then
    .error (.httpError status ("API Error (".toList ++ (toString status).toList
      ++ "): ".toList ++ http_error_message status body))
  else
    match loadsWithClean body with
    | .error e => .error e
    | .ok r => postParse auto r

/-
The client object and its public operations.  Each operation is modelled
up to the point of dispatch: it either raises a validation error or
yields the request `_request` would send (URL, merged query parameters,
method, JSON body).  The response half is `processResponse` above;
`runOp` composes the two for a given simulated response.
-/

/-- HTTP methods `_request` supports. -/
inductive HttpMethod where
  | GET
  | POST
  | DELETE
deriving DecidableEq

/-- The request `_request` builds before dispatching. -/
structure RequestModel where
  url : Chars
  params : JObj
  method : HttpMethod
  body : Option Json

/-- Query parameter key `route`. -/
def routeKey : Chars := "route".toList

/-- Route value `api/product_api/<endpoint>`. -/
def routeValue (endpoint : Chars) : Chars :=
  "api/product_api/".toList ++ endpoint

/-- Parameter merge of `_request`: a dict holding `route` updated with
the caller parameters (`full_params.update(params)`). -/
def fullParams (endpoint : Chars) (params : JObj) : JObj :=
  jobjCollect (.cons routeKey (.str (routeValue endpoint)) .nil) params

/-- Connection configuration held by the client. -/
structure OpenCartAPI where
  base_url : Chars
  api_key : Chars
  auto_decode_html : Bool
  timeout : Int

/-- Strips trailing slashes, as the constructor does on `base_url`. -/
def rstripSlash (s : Chars) : Chars :=
  (s.reverse.dropWhile (· = '/')).reverse

/-- Model of the constructor (`base_url.rstrip` plus stored options; the
session headers carry no state the claims touch). -/
def OpenCartAPI.make (base_url api_key : Chars) (auto_decode_html : Bool)
    (timeout : Int) : OpenCartAPI :=
  ⟨rstripSlash base_url, api_key, auto_decode_html, timeout⟩

/-- Request half of `OpenCartAPI._request`: the URL
`<base_url>/index.php` and the merged parameters. -/
def OpenCartAPI.request_build (c : OpenCartAPI) (endpoint : Chars)
    (method : HttpMethod) (body : Option Json) (params : JObj) : RequestModel :=
  ⟨c.base_url ++ "/index.php".toList, fullParams endpoint params, method, body⟩

/-- Model of `search_products`. -/
def OpenCartAPI.search_products (c : OpenCartAPI) (name : Chars)
    (start limit : Int) : Except PyErr RequestModel :=
  if limit > 100 then .error (.validationError limitMsg)
  else .ok (c.request_build "searchProduct".toList .GET none
    (.cons "name".toList (.str name)
      (.cons "start".toList (.num start)
        (.cons "limit".toList (.num limit) .nil))))

/-- Model of `get_product` (the `isinstance` half of the guard is
enforced by the `Int` type). -/
def OpenCartAPI.get_product (c : OpenCartAPI) (product_id : Int) :
    Except PyErr RequestModel :=
  if product_id ≤ 0 then .error (.validationError invalidProductIdMsg)
  else .ok (c.request_build "getProduct".toList .GET none
    (.cons "product_id".toList (.num product_id) .nil))

/-- Model of `update_product`. -/
def OpenCartAPI.update_product (c : OpenCartAPI) (product_id : Int)
    (data : JObj) (encode_html : Bool) : Except PyErr RequestModel :=
  if product_id ≤ 0 then .error (.validationError invalidProductIdMsg)
  else
    let payload := if encode_html then encode_html_obj data else data
    .ok (c.request_build "updateProduct".toList .POST (some (.obj payload))
      (.cons "product_id".toList (.num product_id) .nil))

/-- Blank test `not s.strip()` (ASCII whitespace fragment). -/
def isBlank (s : Chars) : Bool :=
  s.all isReWs

/-- Model of `search_attributes_by_key`. -/
def OpenCartAPI.search_attributes_by_key (c : OpenCartAPI) (key : Chars) :
    Except PyErr RequestModel :=
  if isBlank key then .error (.validationError emptyKeyMsg)
  else .ok (c.request_build "searchAttributeByKey".toList .GET none
    (.cons "key".toList (.str key) .nil))

/-- Model of `search_attributes_by_value`. -/
def OpenCartAPI.search_attributes_by_value (c : OpenCartAPI) (value : Chars) :
    Except PyErr RequestModel :=
  if isBlank value then .error (.validationError emptyValueMsg)
  else .ok (c.request_build "searchAttributeByValue".toList .GET none
    (.cons "value".toList (.str value) .nil))

/-- Model of `get_attribute`. -/
def OpenCartAPI.get_attribute (c : OpenCartAPI) (attribute_id : Int) :
    Except PyErr RequestModel :=
  if attribute_id ≤ 0 then .error (.validationError invalidAttributeIdMsg)
  else .ok (c.request_build "getAttribute".toList .GET none
    (.cons "attribute_id".toList (.num attribute_id) .nil))

/-- Model of `add_attribute` (`data` is a dict by type; `not data`
rejects the empty dict). -/
def OpenCartAPI.add_attribute (c : OpenCartAPI) (data : JObj)
    (encode_html : Bool) : Except PyErr RequestModel :=
  match data with
  | .nil => .error (.validationError invalidAttributeDataMsg)
  | _ =>
    let payload := if encode_html then encode_html_obj data else data
    .ok (c.request_build "addAttribute".toList .POST (some (.obj payload)) .nil)

/-- Model of `search_attribute_groups`: the `name` parameter is added
only when `if name:` holds, so both an absent and an empty name leave it
out. -/
def OpenCartAPI.search_attribute_groups (c : OpenCartAPI)
    (name : Option Chars) : Except PyErr RequestModel :=
  let params : JObj :=
    match name with
    | some s => if !s.isEmpty then .cons "name".toList (.str s) .nil else .nil
    | none => .nil
  .ok (c.request_build "searchAttributeGroup".toList .GET none params)

/-- Model of `add_attribute_group`. -/
def OpenCartAPI.add_attribute_group (c : OpenCartAPI) (data : JObj)
    (encode_html : Bool) : Except PyErr RequestModel :=
  match data with
  | .nil => .error (.validationError invalidGroupDataMsg)
  | _ =>
    let payload := if encode_html then encode_html_obj data else data
    .ok (c.request_build "addAttributeGroup".toList .POST (some (.obj payload)) .nil)

/-- Model of `get_all_categories`. -/
def OpenCartAPI.get_all_categories (c : OpenCartAPI) (start limit : Int) :
    Except PyErr RequestModel :=
  if limit > 100 then .error (.validationError limitMsg)
  else .ok (c.request_build "getAllCategories".toList .GET none
    (.cons "start".toList (.num start)
      (.cons "limit".toList (.num limit) .nil)))

/-- Model of `search_categories`. -/
def OpenCartAPI.search_categories (c : OpenCartAPI) (name : Chars) :
    Except PyErr RequestModel :=
  if isBlank name then .error (.validationError emptyNameMsg)
  else .ok (c.request_build "searchCategories".toList .GET none
    (.cons "name".toList (.str name) .nil))

/-- Model of `get_debug_info`. -/
def OpenCartAPI.get_debug_info (c : OpenCartAPI) : Except PyErr RequestModel :=
  .ok (c.request_build "debugInfo".toList .GET none .nil)

/-- Composition of an operation with a simulated response: a validation
failure short-circuits before the network; otherwise the outcome is the
processed response. -/
def runOp (op : Except PyErr RequestModel) (auto : Bool) (status : Nat)
    (body : Chars) : Except PyErr Json :=
  match op with
  | .error e => .error e
  | .ok _ => processResponse auto status body

/-
Helper lemmas about dict assignment and the parameter merge.
-/

/-- Assignment leaves every other key unchanged. -/
theorem jobjGet_assign_ne : ∀ (kvs : JObj) (k : Chars) (v : Json) (k2 : Chars),
    k2 ≠ k → jobjGet (jobjAssign kvs k v) k2 = jobjGet kvs k2
  | .nil, k, v, k2, h => by
    simp only [jobjAssign, jobjGet]
    rw [if_neg (fun he => h he.symm)]
  | .cons k0 v0 tl, k, v, k2, h => by
    by_cases hk : k0 = k
    · subst hk
      simp only [jobjAssign, if_pos rfl, jobjGet]
      rw [if_neg (fun he => h he.symm), if_neg (fun he => h he.symm)]
    · simp only [jobjAssign, if_neg hk, jobjGet]
      by_cases h2 : k0 = k2
      · rw [if_pos h2, if_pos h2]
      · rw [if_neg h2, if_neg h2]
        exact jobjGet_assign_ne tl k v k2 h

/-- Folding params into an accumulator does not touch keys the params
lack. -/
theorem jobjGet_collect_notin : ∀ (ps acc : JObj) (k : Chars),
    jobjHasKey ps k = false → jobjGet (jobjCollect acc ps) k = jobjGet acc k
  | .nil, _, _, _ => rfl
  | .cons k0 v0 tl, acc, k, h => by
    by_cases hk : k0 = k
    · exfalso
      rw [show jobjHasKey (.cons k0 v0 tl) k = ((if k0 = k then some v0 else jobjGet tl k)).isSome
        from rfl, if_pos hk] at h
      exact Bool.noConfusion h
    · have htl : jobjHasKey tl k = false := by
        rw [show jobjHasKey (.cons k0 v0 tl) k = ((if k0 = k then some v0 else jobjGet tl k)).isSome
          from rfl, if_neg hk] at h
        exact h
      rw [show jobjCollect acc (.cons k0 v0 tl) = jobjCollect (jobjAssign acc k0 v0) tl from rfl,
        jobjGet_collect_notin tl (jobjAssign acc k0 v0) k htl,
        jobjGet_assign_ne acc k0 v0 k (fun he => hk he.symm)]

/-- Demonstration client used by the concrete instances below. -/
def demoClient : OpenCartAPI :=
  OpenCartAPI.make "http://shop.example/".toList "key123".toList true 30

/-- C1 (amended): every built request targets `<base_url>/index.php`,
and for every caller parameter dict that does not itself contain a
`route` key the merged parameters carry
`route = api/product_api/<endpoint>`.  The unamended universal claim
fails because `full_params.update(params)` lets a caller-supplied
`route` entry overwrite the computed one (no public operation passes
one). -/
theorem c1_route_parameter (c : OpenCartAPI) (endpoint : Chars)
    (method : HttpMethod) (body : Option Json) (params : JObj)
    (h : jobjHasKey params routeKey = false) :
    (c.request_build endpoint method body params).url
      = c.base_url ++ "/index.php".toList ∧
    jobjGet (c.request_build endpoint method body params).params routeKey
      = some (.str (routeValue endpoint)) := by
  constructor
  · rfl
  · show jobjGet (fullParams endpoint params) routeKey = some (.str (routeValue endpoint))
    rw [fullParams, jobjGet_collect_notin params _ routeKey h]
    rfl

/-- C1 witness: concrete request with extra caller parameters and no
`route` key among them. -/
theorem c1_witness :
    (demoClient.request_build "getProduct".toList .GET none
        (.cons "product_id".toList (.num 7) .nil)).url
      = demoClient.base_url ++ "/index.php".toList ∧
    jobjGet (demoClient.request_build "getProduct".toList .GET none
        (.cons "product_id".toList (.num 7) .nil)).params routeKey
      = some (.str (routeValue "getProduct".toList)) :=
  c1_route_parameter demoClient "getProduct".toList .GET none
    (.cons "product_id".toList (.num 7) .nil) (by decide)

/-- C1 counterexample: a caller parameter keyed `route` silently
replaces the computed route, contradicting the claim that this can
never happen. -/
theorem c1_counterexample :
    jobjGet ((demoClient.request_build "getProduct".toList .GET none
        (.cons routeKey (.str "evil".toList) .nil)).params) routeKey
      = some (.str "evil".toList) ∧
    "evil".toList ≠ routeValue "getProduct".toList :=
  ⟨rfl, by decide⟩

/-- C5: the public operations validate locally and return the raised
`ValidationError` with no request value built: an oversized limit in
`search_products` / `get_all_categories`, and a non-positive id in
`get_product` / `get_attribute`. -/
theorem c5_validation (c : OpenCartAPI) (name : Chars) (start limit : Int)
    (pid aid : Int) (hlim : limit > 100) (hpid : pid ≤ 0) (haid : aid ≤ 0) :
    c.search_products name start limit = .error (.validationError limitMsg) ∧
    c.get_all_categories start limit = .error (.validationError limitMsg) ∧
    c.get_product pid = .error (.validationError invalidProductIdMsg) ∧
    c.get_attribute aid = .error (.validationError invalidAttributeIdMsg) := by
  refine ⟨?_, ?_, ?_, ?_⟩
  · simp [OpenCartAPI.search_products, hlim]
  · simp [OpenCartAPI.get_all_categories, hlim]
  · simp [OpenCartAPI.get_product, hpid]
  · simp [OpenCartAPI.get_attribute, haid]

/-- C5 witness: the concrete invalid inputs of the claim. -/
theorem c5_witness :
    demoClient.search_products "x".toList 0 101 = .error (.validationError limitMsg) ∧
    demoClient.get_all_categories 0 101 = .error (.validationError limitMsg) ∧
    demoClient.get_product 0 = .error (.validationError invalidProductIdMsg) ∧
    demoClient.get_product (-5) = .error (.validationError invalidProductIdMsg) ∧
    demoClient.get_attribute 0 = .error (.validationError invalidAttributeIdMsg) :=
  ⟨(c5_validation demoClient "x".toList 0 101 0 0 (by decide) (by decide) (by decide)).1,
   (c5_validation demoClient "x".toList 0 101 0 0 (by decide) (by decide) (by decide)).2.1,
   (c5_validation demoClient "x".toList 0 101 0 0 (by decide) (by decide) (by decide)).2.2.1,
   (c5_validation demoClient "x".toList 0 101 (-5) 0 (by decide) (by decide) (by decide)).2.2.1,
   (c5_validation demoClient "x".toList 0 101 0 0 (by decide) (by decide) (by decide)).2.2.2⟩

/-- C9 (amended): `search_attribute_groups` without a name omits the
`name` parameter; a non-empty name is sent.  The unamended claim fails
because the empty-string filter is treated identically to the absent
one (`if name:` is false for the empty string), so the two cases are
not distinguished in the outgoing request. -/
theorem c9_name_parameter (c : OpenCartAPI) :
    (∃ req, c.search_attribute_groups none = .ok req ∧
      jobjHasKey req.params "name".toList = false) ∧
    c.search_attribute_groups (some []) = c.search_attribute_groups none ∧
    (∀ s : Chars, s ≠ [] → ∃ req, c.search_attribute_groups (some s) = .ok req ∧
      jobjGet req.params "name".toList = some (.str s)) := by
  refine ⟨⟨_, rfl, rfl⟩, rfl, ?_⟩
  intro s hs
  cases s with
  | nil => exact absurd rfl hs
  | cons a t => exact ⟨_, rfl, rfl⟩

/-- C9 witness: absent name versus the name `x`. -/
theorem c9_witness :
    (∃ req, demoClient.search_attribute_groups none = .ok req ∧
      jobjHasKey req.params "name".toList = false) ∧
    (∃ req, demoClient.search_attribute_groups (some "x".toList) = .ok req ∧
      jobjGet req.params "name".toList = some (.str "x".toList)) :=
  ⟨(c9_name_parameter demoClient).1,
   (c9_name_parameter demoClient).2.2 "x".toList (by decide)⟩

/-- C9 counterexample: with the demonstration client, the empty-string
filter call and the no-filter call build the very same request, so the
two cases are not distinguished. -/
theorem c9_counterexample :
    demoClient.search_attribute_groups (some "".toList)
      = demoClient.search_attribute_groups none ∧
    jobjHasKey ((demoClient.request_build "searchAttributeGroup".toList .GET none .nil).params)
      "name".toList = false :=
  ⟨rfl, rfl⟩

/-- Matching the brace alternative at the start of a brace-delimited
span that reaches the end of input succeeds with the whole span. -/
theorem matchSpan_at_open (mid : Chars) :
    matchSpan lbrace rbrace (lbrace :: (mid ++ [rbrace]))
      = some (lbrace :: (mid ++ [rbrace])) := by
  simp only [matchSpan, if_pos rfl, List.reverse_append, List.reverse_cons,
    List.reverse_nil, List.nil_append, List.cons_append, List.dropWhile]
  rw [show isReWs rbrace = false from rfl]
  simp [List.reverse_cons]

/-- Scanning start positions skips characters that open neither
alternative. -/
theorem searchSpan_skip_noise : ∀ (noise : Chars) (core : Chars),
    (∀ a ∈ noise, a ≠ lbrace ∧ a ≠ '[') →
    searchSpan (noise ++ core) = searchSpan core
  | [], _, _ => rfl
  | a :: tl, core, h => by
    have ha := h a (by simp)
    have htl : ∀ x ∈ tl, x ≠ lbrace ∧ x ≠ '[' := fun x hx => h x (by simp [hx])
    show searchSpan (a :: (tl ++ core)) = searchSpan core
    rw [show searchSpan (a :: (tl ++ core))
        = (match matchSpan lbrace rbrace (a :: (tl ++ core)) with
           | some g => some g
           | none =>
             match matchSpan '[' ']' (a :: (tl ++ core)) with
             | some g => some g
             | none => searchSpan (tl ++ core)) from rfl]
    rw [show matchSpan lbrace rbrace (a :: (tl ++ core)) = none from by
      simp [matchSpan, ha.1]]
    rw [show matchSpan '[' ']' (a :: (tl ++ core)) = none from by
      simp [matchSpan, ha.2]]
    exact searchSpan_skip_noise tl core htl

/-- C2: the recovery heuristic is never consulted when direct parsing
succeeds, and on a body made of noise (free of openers) followed by a
brace-delimited span ending the text, the cleaning step extracts
exactly that trailing span, from its opening brace to the final closing
brace. -/
theorem c2_recovery :
    (∀ (auto : Bool) (status : Nat) (body : Chars) (j : Json),
      json_loads body = some j → httpFailStatus status = false →
      processResponse auto status body = postParse auto j) ∧
    (∀ (noise mid : Chars), (∀ a ∈ noise, a ≠ lbrace ∧ a ≠ '[') →
      clean_json_response (noise ++ lbrace :: (mid ++ [rbrace]))
        = lbrace :: (mid ++ [rbrace])) := by
  constructor
  · intro auto status body j hparse hstatus
    simp [processResponse, hstatus, loadsWithClean, hparse]
  · intro noise mid h
    rw [clean_json_response, searchSpan_skip_noise noise _ h,
      show searchSpan (lbrace :: (mid ++ [rbrace]))
        = (match matchSpan lbrace rbrace (lbrace :: (mid ++ [rbrace])) with
           | some g => some g
           | none =>
             match matchSpan '[' ']' (lbrace :: (mid ++ [rbrace])) with
             | some g => some g
             | none => searchSpan (mid ++ [rbrace])) from rfl,
      matchSpan_at_open mid]
    rfl

/-- Body of the diagnostic-noise recovery example. -/
def diagNoise : Chars := "Notice: Undefined index price in catalog.php on line 42\n".toList

/-- JSON part of the diagnostic-noise recovery example, without its
delimiting braces. -/
def diagMid : Chars := "\"success\": true, \"count\": 0, \"data\": []".toList

/-- Envelope parsed from the trailing JSON object of the example. -/
def diagEnvelope : Json :=
  .obj (.cons successKey (.bool true)
    (.cons "count".toList (.num 0)
      (.cons dataKey (.arr .nil) .nil)))

/-- C2 witness: the concrete diagnostic body is cleaned to its trailing
JSON object, direct parsing of that object alone bypasses the
heuristic, and the full pipeline returns the envelope with its
structure unchanged. -/
theorem c2_witness :
    clean_json_response (diagNoise ++ lbrace :: (diagMid ++ [rbrace]))
      = lbrace :: (diagMid ++ [rbrace]) ∧
    processResponse true 200 (lbrace :: (diagMid ++ [rbrace]))
      = postParse true diagEnvelope ∧
    json_loads (diagNoise ++ lbrace :: (diagMid ++ [rbrace])) = none ∧
    processResponse true 200 (diagNoise ++ lbrace :: (diagMid ++ [rbrace]))
      = .ok diagEnvelope :=
  ⟨c2_recovery.2 diagNoise diagMid (by decide),
   c2_recovery.1 true 200 (lbrace :: (diagMid ++ [rbrace])) diagEnvelope (by rfl) rfl,
   by rfl, by rfl⟩

/-- C3: on a success status, when the (possibly recovered) parse yields
an envelope whose `success` is `true` and which carries a `data` entry,
processing with HTML decoding enabled returns the envelope with `data`
replaced by its recursive decode; the decode walk rewrites exactly the
string leaves by entity decoding and returns every non-string leaf
unchanged. -/
theorem c3_decode (status : Nat) (body : Chars) (kvs : JObj) (d : Json)
    (hstatus : httpFailStatus status = false)
    (hload : loadsWithClean body = .ok (.obj kvs))
    (hsuccess : jobjGet kvs successKey = some (.bool true))
    (hdata : jobjGet kvs dataKey = some d) :
    processResponse true status body
      = .ok (.obj (jobjAssign kvs dataKey (decode_html_in_dict d))) ∧
    (∀ s : Chars, decode_html_in_dict (.str s) = .str (html_unescape s)) ∧
    (∀ n : Int, decode_html_in_dict (.num n) = .num n) ∧
    (∀ b : Bool, decode_html_in_dict (.bool b) = .bool b) ∧
    decode_html_in_dict .null = .null := by
  refine ⟨?_, fun _ => rfl, fun _ => rfl, fun _ => rfl, rfl⟩
  simp [processResponse, hstatus, hload, postParse, pyContainsStr, jobjHasKey,
    hsuccess, hdata, truthy]

/-- Body of the decode example. -/
def c3Body : Chars :=
  "\x7b\"success\": true, \"data\": \x7b\"name\": \"&lt;Test&gt;\"\x7d\x7d".toList

/-- Envelope fields parsed from the decode example. -/
def c3Kvs : JObj :=
  .cons successKey (.bool true)
    (.cons dataKey (.obj (.cons "name".toList (.str "&lt;Test&gt;".toList) .nil)) .nil)

/-- C3 witness: the concrete body of the claim; the returned `data.name`
is the decoded text. -/
theorem c3_witness :
    processResponse true 200 c3Body
      = .ok (.obj (jobjAssign c3Kvs dataKey
          (decode_html_in_dict (.obj (.cons "name".toList (.str "&lt;Test&gt;".toList) .nil))))) ∧
    decode_html_in_dict (.obj (.cons "name".toList (.str "&lt;Test&gt;".toList) .nil))
      = .obj (.cons "name".toList (.str "<Test>".toList) .nil) :=
  ⟨(c3_decode 200 c3Body c3Kvs
      (.obj (.cons "name".toList (.str "&lt;Test&gt;".toList) .nil))
      rfl (by rfl) (by rfl) (by rfl)).1,
   by rfl⟩

/-- C4: on structures whose string leaves are in the canonical encoded
form (the common domain of the pair: entities drawn from `&amp;` `&lt;`
`&gt;`, no bare markup characters), deep encode after deep decode is
the identity. -/
theorem c4_encode_decode_round_trip (x : Json) (h : encodedDeepJ x = true) :
    encode_html_in_dict (decode_html_in_dict x) = x :=
  encode_decode_J x h

/-- Structure used by the round-trip witness. -/
def c4Example : Json :=
  .obj (.cons "name".toList (.str "&lt;Test &amp; Demo&gt;".toList)
    (.cons "qty".toList (.num 5)
      (.cons "tags".toList (.arr (.cons (.str "a&amp;b".toList) (.cons .null .nil))) .nil)))

/-- C4 witness: a nested structure with canonical entities round-trips. -/
theorem c4_witness :
    encodedDeepJ c4Example = true ∧
    encode_html_in_dict (decode_html_in_dict c4Example) = c4Example :=
  ⟨by decide, c4_encode_decode_round_trip c4Example (by decide)⟩

/-- C6 (amended): on a success status, a body that both direct parsing
and the recovery heuristic fail to parse raises the invalid-JSON
`InvalidResponseError`, and a parsed dict envelope lacking a `success`
key raises the malformed-envelope `InvalidResponseError`.  The
unamended claim fails for non-dict parsed JSON, where the membership
test misbehaves instead of raising `InvalidResponseError`. -/
theorem c6_invalid_response (auto : Bool) (status : Nat) (body : Chars)
    (kvs : JObj) (hstatus : httpFailStatus status = false) :
    (json_loads body = none → json_loads (clean_json_response body) = none →
      processResponse auto status body
        = .error (.invalidResponse (invalidJsonMsg body))) ∧
    (loadsWithClean body = .ok (.obj kvs) → jobjHasKey kvs successKey = false →
      processResponse auto status body
        = .error (.invalidResponse missingSuccessMsg)) := by
  constructor
  · intro h1 h2
    simp [processResponse, hstatus, loadsWithClean, h1, h2]
  · intro hload hkey
    simp [processResponse, hstatus, hload, postParse, pyContainsStr, hkey]

/-- C6 witness: the unparsable body of the claim, and a dict envelope
without `success`. -/
theorem c6_witness :
    processResponse true 200 "not json at all".toList
      = .error (.invalidResponse (invalidJsonMsg "not json at all".toList)) ∧
    processResponse true 200 "\x7b\"count\": 0\x7d".toList
      = .error (.invalidResponse missingSuccessMsg) :=
  ⟨(c6_invalid_response true 200 "not json at all".toList .nil rfl).1 (by rfl) (by rfl),
   (c6_invalid_response true 200 "\x7b\"count\": 0\x7d".toList
      (.cons "count".toList (.num 0) .nil) rfl).2 (by rfl) (by rfl)⟩

/-- C6 counterexample: valid JSON without a `success` field does not
always raise `InvalidResponseError`.  The body `42` parses to an
integer and the membership test `success not in result` raises
`TypeError`; the body `"success"` parses to a string whose substring
test passes, and with HTML decoding disabled the non-dict payload is
returned silently. -/
theorem c6_counterexample :
    processResponse true 200 "42".toList = .error .typeError ∧
    processResponse false 200 "\"success\"".toList = .ok (.str "success".toList) ∧
    PyErr.typeError ≠ PyErr.invalidResponse missingSuccessMsg :=
  ⟨rfl, rfl, by decide⟩

/-- C7: a well-formed envelope (a parsed dict containing a `success`
key) received on a success status is always returned, never raised;
and when `success` is `false` the envelope is returned exactly as
parsed, so a false `success` is data for the caller, not an
exception. -/
theorem c7_success_not_exception (auto : Bool) (status : Nat) (body : Chars)
    (kvs : JObj) (hstatus : httpFailStatus status = false)
    (hload : loadsWithClean body = .ok (.obj kvs))
    (hkey : jobjHasKey kvs successKey = true) :
    (∃ r, processResponse auto status body = .ok r) ∧
    (jobjGet kvs successKey = some (.bool false) →
      processResponse auto status body = .ok (.obj kvs)) := by
  have hpost : processResponse auto status body = postParse auto (.obj kvs) := by
    simp [processResponse, hstatus, hload]
  have hcont : pyContainsStr successKey (Json.obj kvs)
      = some (jobjHasKey kvs successKey) := rfl
  constructor
  · rw [hpost]
    unfold postParse
    rw [hcont, hkey]
    cases auto with
    | false => exact ⟨_, rfl⟩
    | true =>
      by_cases hc : (truthy ((jobjGet kvs successKey).getD .null)
          && jobjHasKey kvs dataKey) = true
      · simp only [if_pos rfl]
        rw [show (if truthy ((jobjGet kvs successKey).getD .null)
            && jobjHasKey kvs dataKey then
              Except.ok (ε := PyErr) (Json.obj (jobjAssign kvs dataKey
                (decode_html_in_dict ((jobjGet kvs dataKey).getD .null))))
            else .ok (.obj kvs)) = .ok (.obj (jobjAssign kvs dataKey
              (decode_html_in_dict ((jobjGet kvs dataKey).getD .null))))
          from if_pos hc]
        exact ⟨_, rfl⟩
      · simp only [if_pos rfl]
        rw [show (if truthy ((jobjGet kvs successKey).getD .null)
            && jobjHasKey kvs dataKey then
              Except.ok (ε := PyErr) (Json.obj (jobjAssign kvs dataKey
                (decode_html_in_dict ((jobjGet kvs dataKey).getD .null))))
            else .ok (.obj kvs)) = .ok (.obj kvs)
          from if_neg hc]
        exact ⟨_, rfl⟩
  · intro hsf
    rw [hpost]
    unfold postParse
    rw [hcont, hkey]
    cases auto with
    | false => rfl
    | true =>
      simp [hsf, truthy]

/-- Body of the false-success example. -/
def c7Body : Chars := "\x7b\"success\": false, \"error\": \"no results\"\x7d".toList

/-- Envelope fields of the false-success example. -/
def c7Kvs : JObj :=
  .cons successKey (.bool false) (.cons errorKey (.str "no results".toList) .nil)

/-- C7 witness: a false-success envelope is returned verbatim. -/
theorem c7_witness :
    processResponse true 200 c7Body = .ok (.obj c7Kvs) :=
  (c7_success_not_exception true 200 c7Body c7Kvs rfl (by rfl) (by rfl)).2 (by rfl)

/-- C8 (amended): a failing status always raises `HttpError` carrying
the status and the extracted message; the message is the `error` field
whenever the body parses to a dict with a string `error` entry, and is
the raw body text whenever the body does not parse as JSON (and is
non-empty).  The unamended claim fails when the body parses but lacks
an `error` field: the message then falls back to the transport
exception text, not to the raw body. -/
theorem c8_http_error (auto : Bool) (status : Nat) (body : Chars)
    (hfail : httpFailStatus status = true) :
    processResponse auto status body = .error (.httpError status
      ("API Error (".toList ++ (toString status).toList ++ "): ".toList
        ++ http_error_message status body)) ∧
    (∀ (kvs : JObj) (s : Chars), json_loads body = some (.obj kvs) →
      jobjGet kvs errorKey = some (.str s) →
      http_error_message status body = s) ∧
    (json_loads body = none → body ≠ [] →
      http_error_message status body = body) := by
  refine ⟨by simp [processResponse, hfail], ?_, ?_⟩
  · intro kvs s h1 h2
    simp [http_error_message, h1, h2, pyStr]
  · intro h1 h2
    cases body with
    | nil => exact absurd rfl h2
    | cons b tl => simp [http_error_message, h1, List.isEmpty]

/-- Body of the 404 example. -/
def c8Body : Chars := "\x7b\"error\": \"Product not found\"\x7d".toList

/-- C8 witness: `get_product 99999` against a 404 with an `error` field
raises `HttpError` whose message contains the server text. -/
theorem c8_witness :
    runOp (demoClient.get_product 99999) true 404 c8Body
      = .error (.httpError 404 "API Error (404): Product not found".toList) ∧
    strContains "Product not found".toList
      "API Error (404): Product not found".toList = true := by
  refine ⟨?_, by decide⟩
  have h := (c8_http_error true 404 c8Body rfl).1
  show processResponse true 404 c8Body = _
  rw [h]
  rfl

/-- C8 counterexample: a 404 whose body is the valid JSON dict without
an `error` field produces a message built from the transport exception
text, which is not the raw body text and does not even contain it. -/
theorem c8_counterexample :
    processResponse true 404 "\x7b\x7d".toList
      = .error (.httpError 404 ("API Error (404): ".toList ++ raiseForStatusText 404)) ∧
    strContains "\x7b\x7d".toList
      ("API Error (404): ".toList ++ raiseForStatusText 404) = false :=
  ⟨rfl, by decide⟩

/-- C10: post-processing modifies at most the `data` entry: any
returned envelope whose body parsed to a dict keeps every key other
than `data` exactly as parsed, and keeps `data` too (the whole envelope
is returned as parsed) whenever `success` is `false`, decoding is
disabled, or `data` is absent. -/
theorem c10_frame (auto : Bool) (status : Nat) (body : Chars) (kvs : JObj)
    (r2 : Json) (hstatus : httpFailStatus status = false)
    (hload : loadsWithClean body = .ok (.obj kvs))
    (hok : processResponse auto status body = .ok r2) :
    ∃ kvs2, r2 = .obj kvs2 ∧
      (∀ k : Chars, k ≠ dataKey → jobjGet kvs2 k = jobjGet kvs k) ∧
      ((jobjGet kvs successKey = some (.bool false) ∨ auto = false ∨
        jobjGet kvs dataKey = none) → r2 = .obj kvs) := by
  have hpost : postParse auto (.obj kvs) = .ok r2 := by
    rw [← hok]
    simp [processResponse, hstatus, hload]
  unfold postParse at hpost
  rw [show pyContainsStr successKey (Json.obj kvs)
    = some (jobjHasKey kvs successKey) from rfl] at hpost
  cases hkey : jobjHasKey kvs successKey with
  | false =>
    rw [hkey] at hpost
    exact absurd hpost (by simp)
  | true =>
    rw [hkey] at hpost
    cases auto with
    | false =>
      simp only [Bool.false_eq_true, if_false] at hpost
      have hr : r2 = .obj kvs := (Except.ok.inj hpost).symm
      exact ⟨kvs, hr, fun _ _ => rfl, fun _ => hr⟩
    | true =>
      simp only [if_pos rfl] at hpost
      by_cases hc : (truthy ((jobjGet kvs successKey).getD .null)
          && jobjHasKey kvs dataKey) = true
      · rw [if_pos hc] at hpost
        have hr : r2 = .obj (jobjAssign kvs dataKey
            (decode_html_in_dict ((jobjGet kvs dataKey).getD .null))) :=
          (Except.ok.inj hpost).symm
        refine ⟨_, hr, ?_, ?_⟩
        · intro k hk
          exact jobjGet_assign_ne kvs dataKey _ k hk
        · intro h3
          exfalso
          rcases h3 with h3 | h3 | h3
          · rw [h3] at hc
            simp [truthy] at hc
          · exact Bool.noConfusion h3
          · rw [show jobjHasKey kvs dataKey = (jobjGet kvs dataKey).isSome from rfl, h3] at hc
            simp at hc
      · rw [if_neg hc] at hpost
        have hr : r2 = .obj kvs := (Except.ok.inj hpost).symm
        exact ⟨kvs, hr, fun _ _ => rfl, fun _ => hr⟩

/-- Body of the frame example. -/
def c10Body : Chars :=
  "\x7b\"success\": true, \"message\": \"ok\", \"count\": 1, \"data\": [\"&amp;\"]\x7d".toList

/-- Envelope fields of the frame example as parsed. -/
def c10Kvs : JObj :=
  .cons successKey (.bool true)
    (.cons "message".toList (.str "ok".toList)
      (.cons "count".toList (.num 1)
        (.cons dataKey (.arr (.cons (.str "&amp;".toList) .nil)) .nil)))

/-- Returned envelope of the frame example (only `data` decoded). -/
def c10Result : Json :=
  .obj (.cons successKey (.bool true)
    (.cons "message".toList (.str "ok".toList)
      (.cons "count".toList (.num 1)
        (.cons dataKey (.arr (.cons (.str "&".toList) .nil)) .nil))))

/-- C10 witness: a decoded response keeps `success`, `message` and
`count` exactly as parsed. -/
theorem c10_witness :
    ∃ kvs2, c10Result = .obj kvs2 ∧
      (∀ k : Chars, k ≠ dataKey → jobjGet kvs2 k = jobjGet c10Kvs k) ∧
      ((jobjGet c10Kvs successKey = some (.bool false) ∨ true = false ∨
        jobjGet c10Kvs dataKey = none) → c10Result = .obj c10Kvs) :=
  c10_frame true 200 c10Body c10Kvs c10Result rfl (by rfl) (by rfl)
